import Mathlib

/-!
# Verification of the RMQueue reliability adapter (studio/rabbit_queue.py)

A shallow embedding of the `RMQueue` class: its mutable fields become a
state structure, each method and broker callback becomes a function on that
state, and the broker-side effects a method issues (consumer cancel,
basic_ack, basic_nack) are returned as an explicit action list.  Waiting
(`time.sleep(1)` in the polling loops) is counted: functions that poll
return the number of one-time-unit sleeps they performed.  Values that the
event-loop thread mutates concurrently (channel readiness at each poll of
`enqueue`, the live pending-deliveries list at each confirmation poll, the
held-message slot during `dequeue`) are supplied as oracles indexed by poll
number.  Python exceptions are modelled either as `Except` errors or as an
explicit crash flag when state mutations precede the raising statement.
-/

namespace RabbitQueue

/-- A broker channel handle as `enqueue` observes it: `self._channel` is
either `None` (modelled by `Option`) or an object with an `is_open` flag. -/
structure Channel where
  is_open : Bool
deriving Repr, DecidableEq

/-- Broker-side effects issued by the methods: cancelling the consumer
registration (`basic_cancel`), negatively acknowledging a delivery
(`basic_nack`), positively acknowledging one (`basic_ack`). -/
inductive BAction where
  | cancel : BAction
  | nack : Nat → BAction
  | ack : Nat → BAction
deriving Repr, DecidableEq

/-- The mutable fields of an `RMQueue` instance.  `deliveries` is the
pending set (`self._deliveries`, a Python list of message numbers),
`rmq_msg`/`rmq_id` are the held-message slot, `message_number` the publish
counter, `acked`/`nacked` the confirmation counters.  The connection is
modelled only by whether `self._connection is None`. -/
structure RMQState where
  url : Option String
  connection : Option Unit
  channel : Option Channel
  consumer : Option Unit
  rmq_msg : Option String
  rmq_id : Option Nat
  deliveries : List Nat
  acked : Nat
  nacked : Nat
  message_number : Nat
  stopping : Bool
  queue : String
  routing_key : String
deriving Repr, DecidableEq

/-- `RMQueue.__init__`: the URL is the `amqp_url` argument (Python default
`''`, i.e. `some ""`), overridden by `config['cloud']['queue']['rmq']`
whenever that path exists in the config.  `configUrl = none` means the path
is absent; `some v` means it is present with value `v` (itself an
`Option String`, since the config value could be Python `None`). -/
def init_url (amqp_url : Option String) (configUrl : Option (Option String)) :
    Option String :=
  match configUrl with
  | some v => v
  | none => amqp_url

/-- The state built by `RMQueue.__init__` before the background `run`
thread connects: no connection, no channel, no consumer, empty slot and
counters. -/
def initState (queue route : String) (amqp_url : Option String)
    (configUrl : Option (Option String)) : RMQState :=
  { url := init_url amqp_url configUrl
    connection := none
    channel := none
    consumer := none
    rmq_msg := none
    rmq_id := none
    deliveries := []
    acked := 0
    nacked := 0
    message_number := 0
    stopping := false
    queue := queue
    routing_key := route }

/-- The reset performed at the top of every iteration of `RMQueue.run`
(lines 290–296): `self._connection = None` and, under the message-tracking
lock, the pending list and the three counters are cleared. -/
def resetTracking (s : RMQState) : RMQState :=
  { s with
    connection := none
    deliveries := []
    acked := 0
    nacked := 0
    message_number := 0 }

/-- `RMQueue.on_message` (lines 456–473).  First the consumer is cancelled
(`basic_cancel`, only issued when a channel exists) and the consumer slot
cleared; then, if a message is already held, the new delivery is rejected —
but the `basic_nack` call is guarded by `self._connection is not None`, and
when a connection exists while `self._channel` is `None` the call
`self._channel.basic_nack(...)` raises `AttributeError` (crash flag).  With
no held message, the delivery body and tag become the held message.
Returns (new state, issued broker actions, crashed?). -/
def on_message (s : RMQState) (body : String) (tag : Nat) :
    RMQState × List BAction × Bool :=
  let acts : List BAction := if s.channel ≠ none then [BAction.cancel] else []
  let s₁ := { s with consumer := none }
  match s₁.rmq_msg with
  | some _ =>
    match s₁.connection with
    | some _ =>
      match s₁.channel with
      | some _ => (s₁, acts ++ [BAction.nack tag], false)
      | none => (s₁, acts, true)
    | none => (s₁, acts, false)
  | none =>
    ({ s₁ with rmq_msg := some body, rmq_id := some tag }, acts, false)

/-- `RMQueue.acknowledge` (lines 479–485): unconditionally clear the
held-message slot; if no channel exists return doing nothing more,
otherwise issue `basic_ack` for the handle. -/
def acknowledge (s : RMQState) (ack_id : Nat) : RMQState × List BAction :=
  let s₁ := { s with rmq_msg := none, rmq_id := none }
  match s₁.channel with
  | none => (s₁, [])
  | some _ => (s₁, [BAction.ack ack_id])

/-- `RMQueue.on_delivery_confirmation` (lines 249–283): increment the
acked counter on a positive confirmation (`Basic.Ack`), the nacked counter
on a negative one (`Basic.Nack`); then `self._deliveries.remove(tag)`,
which removes the first occurrence of `tag`, or raises `ValueError`
(crash flag) when `tag` is absent — the counter increment has already
happened at that point. -/
def on_delivery_confirmation (s : RMQState) (tag : Nat) (positive : Bool) :
    RMQState × Bool :=
  let s₁ :=
    if positive then { s with acked := s.acked + 1 }
    else { s with nacked := s.nacked + 1 }
  if s₁.deliveries.contains tag then
    ({ s₁ with deliveries := s₁.deliveries.erase tag }, false)
  else
    (s₁, true)

/-- The channel-readiness predicate `enqueue` polls: the channel exists and
`is_open` (lines 370–381 take the `break` only in the `else` branch). -/
def channelReady : Option Channel → Bool
  | some c => c.is_open
  | none => false

/-- The first waiting loop of `enqueue` (lines 368–384): starting from
`tries = retries`, check readiness at poll index `i`; on success `break`
(keeping the current `tries`), otherwise sleep one time unit and decrement.
`ready` gives the readiness observed at each poll (the channel field is
mutated concurrently by the event loop).  Returns (final value of `tries`,
number of sleeps). -/
def waitChannel (ready : Nat → Bool) : Nat → Nat → Nat × Nat
  | _, 0 => (0, 0)
  | i, t + 1 =>
    if ready i then (t + 1, 0)
    else
      let r := waitChannel ready (i + 1) t
      (r.1, r.2 + 1)

/-- The confirmation-waiting loop of `enqueue` (lines 409–421): while
`tries != 0`, sleep one time unit, then test whether the message number has
left the live pending list (`conf j` = "absent at poll `j`"); return
success as soon as it has, else decrement and repeat.  Returns
(confirmed?, number of sleeps). -/
def waitConfirm (conf : Nat → Bool) : Nat → Nat → Bool × Nat
  | _, 0 => (false, 0)
  | j, t + 1 =>
    if conf j then (true, 1)
    else
      let r := waitConfirm conf (j + 1) t
      (r.1, r.2 + 1)

/-- The errors `enqueue` raises (all `Exception` in the source, told apart
by their messages, lines 360–361, 363–365, 387, 423–425). -/
inductive EnqErr where
  | configurationError
  | invalidArgument
  | channelUnavailable
  | publishUnconfirmed
deriving Repr, DecidableEq

/-- `RMQueue.enqueue` (lines 353–425).  Raise if `self._url is None`;
raise if `msg is None`; poll up to `retries` times for channel readiness
(`ready i` = readiness at the i-th poll), raising after the budget is
exhausted; then publish, increment `self._message_number`, append it to
the pending list, and poll up to `retries` times (one sleep before each
poll) for the number to leave the live pending list (`delivs j` = that
list at the j-th poll, as left by concurrent confirmation callbacks),
returning the message number on success and raising otherwise.  Result:
(`Except` outcome carrying the post-publish local state, total sleeps). -/
def enqueue (s : RMQState) (msg : Option String) (retries : Nat)
    (ready : Nat → Bool) (delivs : Nat → List Nat) :
    Except EnqErr (Nat × RMQState) × Nat :=
  if s.url = none then (Except.error EnqErr.configurationError, 0)
  else if msg = none then (Except.error EnqErr.invalidArgument, 0)
  else
    let w := waitChannel ready 0 retries
    if w.1 = 0 then (Except.error EnqErr.channelUnavailable, w.2)
    else
      let n := s.message_number + 1
      let s₁ := { s with message_number := n, deliveries := s.deliveries ++ [n] }
      let c := waitConfirm (fun j => !((delivs j).contains n)) 0 retries
      if c.1 then (Except.ok (n, s₁), w.2 + c.2)
      else (Except.error EnqErr.publishUnconfirmed, w.2 + c.2)

/-- The consumer registration at the top of each `dequeue` iteration
(lines 435–438): if no consumer is registered and a channel exists,
`basic_consume` starts one. -/
def registerConsumer (s : RMQState) : RMQState :=
  if s.consumer = none ∧ s.channel ≠ none then { s with consumer := some () }
  else s

/-- A delivery arriving from the event loop is applied to the state through
`on_message`; the issued actions and the crash flag do not affect the
state `dequeue` observes (the mutations of `on_message` precede its only
raising statement). -/
def applyArrival (arr : Option (String × Nat)) (s : RMQState) : RMQState :=
  match arr with
  | none => s
  | some (b, t) => (on_message s b t).1

/-- The loop body of `RMQueue.dequeue` (lines 427–454), iterating
`i in range(timeout+1)` with `rem` iterations left after this one
(`rem = timeout - i`).  Each iteration: any delivery arriving before the
poll is applied, the consumer is registered if needed, and the held slot is
checked — if a message is held, return `(body, handle)`; at the last
iteration (`i >= timeout`) return `none`; otherwise sleep one time unit.
Returns (result, final state, number of sleeps). -/
def dequeueLoop (arrive : Nat → Option (String × Nat)) :
    Nat → RMQState → Nat → Option (String × Option Nat) × RMQState × Nat
  | i, s, 0 =>
    let s₁ := registerConsumer (applyArrival (arrive i) s)
    match s₁.rmq_msg with
    | some m => (some (m, s₁.rmq_id), s₁, 0)
    | none => (none, s₁, 0)
  | i, s, rem + 1 =>
    let s₁ := registerConsumer (applyArrival (arrive i) s)
    match s₁.rmq_msg with
    | some m => (some (m, s₁.rmq_id), s₁, 0)
    | none =>
      let r := dequeueLoop arrive (i + 1) s₁ rem
      (r.1, r.2.1, r.2.2 + 1)

/-- `RMQueue.dequeue` with `acknowledge=True` left implicit (the parameter
is unused in the source): poll the held slot `timeout + 1` times with a
one-time-unit sleep between polls; `arrive i` is the delivery (body, tag)
the event loop hands to `on_message` just before the i-th poll, if any. -/
def dequeue (s : RMQState) (timeout : Nat)
    (arrive : Nat → Option (String × Nat)) :
    Option (String × Option Nat) × RMQState × Nat :=
  dequeueLoop arrive 0 s timeout

/-! ## Concrete states used by witnesses and counterexamples -/

/-- A freshly constructed instance with an explicit URL. -/
def s0W : RMQState := initState "q" "r" (some "amqp://host") none

/-- A connected instance with an open channel. -/
def sReadyW : RMQState :=
  { s0W with connection := some (), channel := some ⟨true⟩ }

/-- A connected instance holding a message. -/
def sHeldW : RMQState :=
  { sReadyW with rmq_msg := some "held", rmq_id := some 3 }

/-- An instance holding a message while `self._connection is None`. -/
def sHeldNoConnW : RMQState :=
  { s0W with channel := some ⟨true⟩, rmq_msg := some "held", rmq_id := some 3 }

/-! ## Characterization of the two polling loops of `enqueue` -/

/-- If readiness is false at every one of the `t` polls starting at index
`i`, the channel wait exhausts its budget: final `tries` is `0` and one
sleep was taken per poll. -/
theorem waitChannel_none (ready : Nat → Bool) :
    ∀ (t i : Nat), (∀ k, k < t → ready (i + k) = false) →
      waitChannel ready i t = (0, t) := by
  intro t
  induction t with
  | zero => intro i _; rfl
  | succ t ih =>
    intro i h
    have h0 : ready i = false := by simpa using h 0 (Nat.succ_pos t)
    have hrec : waitChannel ready (i + 1) t = (0, t) := by
      refine ih (i + 1) (fun k hk => ?_)
      have e : i + 1 + k = i + (k + 1) := by omega
      rw [e]
      exact h (k + 1) (Nat.succ_lt_succ hk)
    simp [waitChannel, h0, hrec]

/-- If the first ready poll is number `k < t`, the channel wait breaks
there: the final `tries` is `t - k` and `k` sleeps were taken. -/
theorem waitChannel_first (ready : Nat → Bool) :
    ∀ (t k i : Nat), k < t → ready (i + k) = true →
      (∀ j, j < k → ready (i + j) = false) →
      waitChannel ready i t = (t - k, k) := by
  intro t
  induction t with
  | zero => intro k i hk _ _; omega
  | succ t ih =>
    intro k i hk hr hmin
    cases k with
    | zero =>
      have h0 : ready i = true := by simpa using hr
      simp [waitChannel, h0]
    | succ k' =>
      have h0 : ready i = false := by simpa using hmin 0 (Nat.succ_pos k')
      have hrec : waitChannel ready (i + 1) t = (t - k', k') := by
        refine ih k' (i + 1) (by omega) ?_ (fun j hj => ?_)
        · have e : i + 1 + k' = i + (k' + 1) := by omega
          rw [e]; exact hr
        · have e : i + 1 + j = i + (j + 1) := by omega
          rw [e]; exact hmin (j + 1) (Nat.succ_lt_succ hj)
      have e : t + 1 - (k' + 1) = t - k' := by omega
      simp [waitChannel, h0, hrec, e]

/-- If the confirmation test fails at every one of the `t` polls starting
at index `j`, the confirmation wait exhausts its budget with one sleep per
poll. -/
theorem waitConfirm_never (conf : Nat → Bool) :
    ∀ (t j : Nat), (∀ k, k < t → conf (j + k) = false) →
      waitConfirm conf j t = (false, t) := by
  intro t
  induction t with
  | zero => intro j _; rfl
  | succ t ih =>
    intro j h
    have h0 : conf j = false := by simpa using h 0 (Nat.succ_pos t)
    have hrec : waitConfirm conf (j + 1) t = (false, t) := by
      refine ih (j + 1) (fun k hk => ?_)
      have e : j + 1 + k = j + (k + 1) := by omega
      rw [e]
      exact h (k + 1) (Nat.succ_lt_succ hk)
    simp [waitConfirm, h0, hrec]

/-- If the first successful confirmation poll is number `k < t`, the
confirmation wait returns success after `k + 1` sleeps (each poll is
preceded by a sleep). -/
theorem waitConfirm_first (conf : Nat → Bool) :
    ∀ (t k j : Nat), k < t → conf (j + k) = true →
      (∀ i, i < k → conf (j + i) = false) →
      waitConfirm conf j t = (true, k + 1) := by
  intro t
  induction t with
  | zero => intro k j hk _ _; omega
  | succ t ih =>
    intro k j hk hc hmin
    cases k with
    | zero =>
      have h0 : conf j = true := by simpa using hc
      simp [waitConfirm, h0]
    | succ k' =>
      have h0 : conf j = false := by simpa using hmin 0 (Nat.succ_pos k')
      have hrec : waitConfirm conf (j + 1) t = (true, k' + 1) := by
        refine ih k' (j + 1) (by omega) ?_ (fun i hi => ?_)
        · have e : j + 1 + k' = j + (k' + 1) := by omega
          rw [e]; exact hc
        · have e : j + 1 + i = j + (i + 1) := by omega
          rw [e]; exact hmin (i + 1) (Nat.succ_lt_succ hi)
      simp [waitConfirm, h0, hrec]

/-! ## Claim C2 — enqueue with no configured URL -/

/-- C2, counterexample.  The claim says that `enqueue` on an instance with
no broker URL configured (neither constructor argument nor config value
supplied) fails immediately with the configuration error.  But the
constructor default for `amqp_url` is the empty string `''`, not `None`,
and `enqueue` tests `self._url is None` — so on a default-constructed
instance the check passes and `enqueue` proceeds to channel polling,
failing with the channel-unavailable error after a one-time-unit wait. -/
theorem c2_default_url_counterexample :
    (initState "q" "r" (some "") none).url = some "" ∧
    enqueue (initState "q" "r" (some "") none) (some "work") 1
        (fun _ => false) (fun _ => []) =
      (Except.error EnqErr.channelUnavailable, 1) :=
  ⟨rfl, rfl⟩

/-- C2, amended: `enqueue` fails immediately (zero sleeps) with the
configuration error exactly when the stored URL is `None`, which requires
`amqp_url` (or the config value) to have been explicitly `None`; when
neither a constructor argument nor a config value is supplied, the stored
URL is the empty-string default, the `is None` check passes, and `enqueue`
proceeds to channel polling. -/
theorem c2_config_error_amended :
    (∀ q r, (initState q r (some "") none).url = some "") ∧
    (∀ s msg retries ready delivs, s.url = none →
      enqueue s msg retries ready delivs =
        (Except.error EnqErr.configurationError, 0)) := by
  refine ⟨fun q r => rfl, fun s msg retries ready delivs h => ?_⟩
  simp [enqueue, h]

/-- C2 witness: the amended theorem applied at a concrete state whose URL
field is `None`. -/
theorem c2_config_error_witness :
    { s0W with url := none }.url = none ∧
    enqueue { s0W with url := none } (some "work") 5
        (fun _ => true) (fun _ => []) =
      (Except.error EnqErr.configurationError, 0) :=
  ⟨rfl, c2_config_error_amended.2 { s0W with url := none } (some "work") 5
    (fun _ => true) (fun _ => []) rfl⟩

/-! ## Claim C3 — enqueue with an empty or absent message -/

/-- C3, counterexample.  The claim says an empty **or** absent message
fails immediately with the invalid-argument error; the code tests only
`msg is None`, so the empty string passes the check and is published:
here `enqueue` with `msg = ""` returns sequence number 1 after
confirmation, instead of raising. -/
theorem c3_empty_message_counterexample :
    enqueue sReadyW (some "") 2 (fun _ => true) (fun _ => []) =
      (Except.ok (1, { sReadyW with message_number := 1, deliveries := [1] }), 1) :=
  rfl

/-- C3, amended: only an absent (`None`) message fails immediately (zero
sleeps) with the invalid-argument error; the empty string is not
rejected. -/
theorem c3_invalid_argument_amended :
    ∀ s retries ready delivs, s.url ≠ none →
      enqueue s none retries ready delivs =
        (Except.error EnqErr.invalidArgument, 0) := by
  intro s retries ready delivs h
  simp [enqueue, h]

/-- C3 witness: the amended theorem applied at a concrete ready state with
an absent message. -/
theorem c3_invalid_argument_witness :
    sReadyW.url ≠ none ∧
    enqueue sReadyW none 5 (fun _ => true) (fun _ => []) =
      (Except.error EnqErr.invalidArgument, 0) :=
  ⟨by simp [sReadyW, s0W, initState, init_url], c3_invalid_argument_amended
    sReadyW 5 (fun _ => true) (fun _ => []) (by simp [sReadyW, s0W, initState, init_url])⟩

/-! ## Claim C9 — enqueue with a zero retry budget -/

/-- C9: with `retries = 0` the readiness `while tries != 0` loop is never
entered, so `tries` is still `0` at the `if tries == 0` check and `enqueue`
raises the channel-unavailable error unconditionally — for every readiness
oracle, including one that reports the channel open and ready at every
poll — with zero sleeps and before any publish. -/
theorem c9_zero_retries_unavailable (s : RMQState) (msg : Option String)
    (ready : Nat → Bool) (delivs : Nat → List Nat)
    (hu : s.url ≠ none) (hm : msg ≠ none) :
    enqueue s msg 0 ready delivs =
      (Except.error EnqErr.channelUnavailable, 0) := by
  simp [enqueue, hu, hm, waitChannel]

/-- C9 witness: a ready state, a valid message, and an always-ready
oracle still produce the channel-unavailable error at `retries = 0`. -/
theorem c9_zero_retries_unavailable_witness :
    sReadyW.url ≠ none ∧ (some "x" : Option String) ≠ none ∧
    enqueue sReadyW (some "x") 0 (fun _ => true) (fun _ => []) =
      (Except.error EnqErr.channelUnavailable, 0) :=
  ⟨by simp [sReadyW, s0W, initState, init_url], by simp,
    c9_zero_retries_unavailable sReadyW (some "x") (fun _ => true) (fun _ => [])
      (by simp [sReadyW, s0W, initState, init_url]) (by simp)⟩

/-! ## Claim C6 — acknowledge always clears the held slot -/

/-- C6: `acknowledge` clears both fields of the held-message slot
unconditionally; the broker-side `basic_ack` is issued exactly when a
channel exists, and nothing is issued when none does. -/
theorem c6_acknowledge_clears (s : RMQState) (ack_id : Nat) :
    (acknowledge s ack_id).1.rmq_msg = none ∧
    (acknowledge s ack_id).1.rmq_id = none ∧
    (acknowledge s ack_id).2 =
      (if s.channel = none then [] else [BAction.ack ack_id]) := by
  cases h : s.channel <;> simp [acknowledge, h]

/-! ## Claim C1 — at most one held message; extra deliveries rejected -/

/-- C1, counterexample.  The claim says every delivery arriving while a
message is held is negatively acknowledged.  The `basic_nack` call is
guarded by `self._connection is not None`: at this concrete state — a
message held while `self._connection` is `None` — the arriving delivery is
dropped without any nack being issued (only the consumer cancel is). -/
theorem c1_nack_counterexample :
    sHeldNoConnW.rmq_msg = some "held" ∧
    sHeldNoConnW.connection = none ∧
    (on_message sHeldNoConnW "fresh" 5).2.1 = [BAction.cancel] ∧
    ¬ BAction.nack 5 ∈ (on_message sHeldNoConnW "fresh" 5).2.1 := by
  refine ⟨rfl, rfl, rfl, by decide⟩

/-- C1, amended.  While a message is held, an arriving delivery is never
surfaced (the held body and handle are unchanged and the delivery is not
stored); it is negatively acknowledged exactly when both a connection and
a channel exist; with no connection it is silently dropped, and with a
connection but no channel the nack attempt raises (`self._channel` is
`None`).  A delivery arriving while no message is held becomes the held
message (body and tag stored, no crash, no nack). -/
theorem c1_on_message_held_amended (s : RMQState) (body : String) (tag : Nat) :
    (s.rmq_msg ≠ none →
      (on_message s body tag).1.rmq_msg = s.rmq_msg ∧
      (on_message s body tag).1.rmq_id = s.rmq_id ∧
      (BAction.nack tag ∈ (on_message s body tag).2.1 ↔
        (s.connection ≠ none ∧ s.channel ≠ none)) ∧
      ((on_message s body tag).2.2 = true ↔
        (s.connection ≠ none ∧ s.channel = none))) ∧
    (s.rmq_msg = none →
      (on_message s body tag).1.rmq_msg = some body ∧
      (on_message s body tag).1.rmq_id = some tag ∧
      (on_message s body tag).2.2 = false ∧
      ¬ BAction.nack tag ∈ (on_message s body tag).2.1) := by
  cases hm : s.rmq_msg <;>
    cases hc : s.connection <;>
      cases hch : s.channel <;>
        simp [on_message, hm, hc, hch]

/-- C1 witness: the amended theorem applied at a concrete held state with
connection and channel present — held slot unchanged, nack issued, no
crash. -/
theorem c1_on_message_held_witness :
    sHeldW.rmq_msg ≠ none ∧
    ((on_message sHeldW "fresh" 5).1.rmq_msg = sHeldW.rmq_msg ∧
     (on_message sHeldW "fresh" 5).1.rmq_id = sHeldW.rmq_id ∧
     (BAction.nack 5 ∈ (on_message sHeldW "fresh" 5).2.1 ↔
       (sHeldW.connection ≠ none ∧ sHeldW.channel ≠ none)) ∧
     ((on_message sHeldW "fresh" 5).2.2 = true ↔
       (sHeldW.connection ≠ none ∧ sHeldW.channel = none))) :=
  ⟨by simp [sHeldW, sReadyW, s0W, initState],
    (c1_on_message_held_amended sHeldW "fresh" 5).1
      (by simp [sHeldW, sReadyW, s0W, initState])⟩

/-! ## Claim C4 — the two bounded polling phases of enqueue -/

/-- C4: given the URL and message preconditions, `enqueue` (a) polls up to
`retries` times for channel readiness, failing with the
channel-unavailable error after `retries` sleeps when no poll observes
readiness; (b) when the first ready poll is number `k`, it publishes:
the assigned sequence number is `message_number + 1`, the publish is
recorded (counter incremented, number appended to the pending list), and
it then polls up to `retries` times — one sleep before each poll — for
the number to leave the live pending list, returning the number after
`k + (j + 1)` total sleeps when poll `j` first observes it gone, and
failing with the publish-unconfirmed error after `k + retries` total
sleeps when no poll does. -/
theorem c4_enqueue_polling (s : RMQState) (msg : Option String) (retries : Nat)
    (ready : Nat → Bool) (delivs : Nat → List Nat)
    (hu : s.url ≠ none) (hm : msg ≠ none) :
    ((∀ i, i < retries → ready i = false) →
      enqueue s msg retries ready delivs =
        (Except.error EnqErr.channelUnavailable, retries)) ∧
    (∀ k, k < retries → ready k = true → (∀ i, i < k → ready i = false) →
      (((∀ j, j < retries →
          (delivs j).contains (s.message_number + 1) = true) →
        enqueue s msg retries ready delivs =
          (Except.error EnqErr.publishUnconfirmed, k + retries)) ∧
       (∀ j, j < retries →
          (delivs j).contains (s.message_number + 1) = false →
          (∀ i, i < j → (delivs i).contains (s.message_number + 1) = true) →
        enqueue s msg retries ready delivs =
          (Except.ok (s.message_number + 1,
            { s with
                message_number := s.message_number + 1,
                deliveries := s.deliveries ++ [s.message_number + 1] }),
           k + (j + 1))))) := by
  constructor
  · intro h
    have hw : waitChannel ready 0 retries = (0, retries) :=
      waitChannel_none ready retries 0 (fun k hk => by simpa using h k hk)
    simp [enqueue, hu, hm, hw]
  · intro k hk hr hmin
    have hw : waitChannel ready 0 retries = (retries - k, k) :=
      waitChannel_first ready retries k 0 hk (by simpa using hr)
        (fun j hj => by simpa using hmin j hj)
    have hne : retries - k ≠ 0 := by omega
    constructor
    · intro h
      have hcf : waitConfirm
          (fun j => !decide (s.message_number + 1 ∈ delivs j)) 0 retries =
          (false, retries) :=
        waitConfirm_never _ retries 0 (fun j hj => by simpa using h j hj)
      simp [enqueue, hu, hm, hw, hne, hcf]
    · intro j hj hgone hbefore
      have hcf : waitConfirm
          (fun i => !decide (s.message_number + 1 ∈ delivs i)) 0 retries =
          (true, j + 1) :=
        waitConfirm_first _ retries j 0 hj (by simpa using hgone)
          (fun i hi => by simpa using hbefore i hi)
      simp [enqueue, hu, hm, hw, hne, hcf]

/-- C4 witness: channel ready at poll 1, confirmation observed at poll 1
— the concrete run returns sequence number 1 after 1 + 2 sleeps. -/
theorem c4_enqueue_polling_witness :
    sReadyW.url ≠ none ∧ (some "x" : Option String) ≠ none ∧
    enqueue sReadyW (some "x") 2 (fun i => decide (1 ≤ i))
        (fun j => if j = 0 then [1] else []) =
      (Except.ok (1, { sReadyW with message_number := 1, deliveries := [1] }), 3) := by
  refine ⟨by simp [sReadyW, s0W, initState, init_url], by simp, ?_⟩
  have h := ((c4_enqueue_polling sReadyW (some "x") 2 (fun i => decide (1 ≤ i))
      (fun j => if j = 0 then [1] else [])
      (by simp [sReadyW, s0W, initState, init_url]) (by simp)).2
    1 (by omega) (by decide)
    (by intro i hi; interval_cases i; decide)).2
    1 (by omega) (by decide)
    (by intro i hi; interval_cases i; decide)
  simpa [sReadyW, s0W, initState] using h

/-! ## Claim C8 — confirmation handling under the pending-tag precondition -/

/-- C8: when the confirmed tag is in the pending list, the handler takes
the non-error branch of the removal, removes exactly that tag (the list is
the erase of the original and shrinks by one), and increments exactly the
acked counter on a positive confirmation, exactly the nacked counter on a
negative one. -/
theorem c8_confirmation_removes_tag (s : RMQState) (tag : Nat) (positive : Bool)
    (h : tag ∈ s.deliveries) :
    (on_delivery_confirmation s tag positive).2 = false ∧
    ((on_delivery_confirmation s tag positive).1).deliveries =
      s.deliveries.erase tag ∧
    ((on_delivery_confirmation s tag positive).1).deliveries.length + 1 =
      s.deliveries.length ∧
    (positive = true →
      ((on_delivery_confirmation s tag positive).1).acked = s.acked + 1 ∧
      ((on_delivery_confirmation s tag positive).1).nacked = s.nacked) ∧
    (positive = false →
      ((on_delivery_confirmation s tag positive).1).nacked = s.nacked + 1 ∧
      ((on_delivery_confirmation s tag positive).1).acked = s.acked) := by
  have h2 : 0 < s.deliveries.length := List.length_pos_of_mem h
  cases positive <;> simp [on_delivery_confirmation, h] <;> omega

/-- C8 witness: the theorem applied at a concrete state with pending list
`[1, 2, 3]` and a positive confirmation of tag 2. -/
theorem c8_confirmation_removes_tag_witness :
    2 ∈ [1, 2, 3] ∧
    ((on_delivery_confirmation { sReadyW with deliveries := [1, 2, 3] } 2 true).2
        = false ∧
     ((on_delivery_confirmation { sReadyW with deliveries := [1, 2, 3] } 2 true).1).deliveries
        = [1, 3] ∧
     ((on_delivery_confirmation { sReadyW with deliveries := [1, 2, 3] } 2 true).1).acked
        = sReadyW.acked + 1) := by
  have h := c8_confirmation_removes_tag
    { sReadyW with deliveries := [1, 2, 3] } 2 true (by decide)
  exact ⟨by decide, h.1, by simpa using h.2.1, (h.2.2.2.1 rfl).1⟩

/-! ## Helper lemmas about the dequeue loop -/

theorem registerConsumer_rmq_msg (s : RMQState) :
    (registerConsumer s).rmq_msg = s.rmq_msg := by
  simp only [registerConsumer]; split <;> rfl

theorem registerConsumer_rmq_id (s : RMQState) :
    (registerConsumer s).rmq_id = s.rmq_id := by
  simp only [registerConsumer]; split <;> rfl

theorem registerConsumer_idem (s : RMQState) :
    registerConsumer (registerConsumer s) = registerConsumer s := by
  simp only [registerConsumer]
  split
  · simp
  · rfl

/-- `on_message` leaves the held slot unchanged when a message is already
held (all three reject branches only clear the consumer slot). -/
theorem on_message_held (s : RMQState) (b : String) (t : Nat) (m : String)
    (h : s.rmq_msg = some m) :
    (on_message s b t).1.rmq_msg = some m ∧
    (on_message s b t).1.rmq_id = s.rmq_id := by
  cases hc : s.connection <;> cases hch : s.channel <;>
    simp [on_message, h, hc, hch]

theorem applyArrival_held (s : RMQState) (a : Option (String × Nat)) (m : String)
    (h : s.rmq_msg = some m) :
    (applyArrival a s).rmq_msg = some m ∧
    (applyArrival a s).rmq_id = s.rmq_id := by
  cases a with
  | none => exact ⟨h, rfl⟩
  | some p => exact on_message_held s p.1 p.2 m h

/-- If no message is held and no arrivals occur, every iteration of the
dequeue loop only (idempotently) registers the consumer, and the loop
times out with one sleep per remaining iteration. -/
theorem dequeueLoop_no_arrivals (s : RMQState) (hm : s.rmq_msg = none) :
    ∀ (rem i : Nat),
      dequeueLoop (fun _ => none) i s rem = (none, registerConsumer s, rem) := by
  intro rem
  induction rem generalizing s with
  | zero =>
    intro i
    simp [dequeueLoop, applyArrival, registerConsumer_rmq_msg, hm]
  | succ rem ih =>
    intro i
    have hm' : (registerConsumer s).rmq_msg = none := by
      rw [registerConsumer_rmq_msg]; exact hm
    have hrec := ih (registerConsumer s) hm' (i + 1)
    simp [dequeueLoop, applyArrival, registerConsumer_rmq_msg, hm, hrec,
      registerConsumer_idem]

/-- If a message is held at loop entry, the loop returns its body and
handle at the very first poll, with zero sleeps, whatever arrives. -/
theorem dequeueLoop_held (s : RMQState) (m : String)
    (arrive : Nat → Option (String × Nat)) (hm : s.rmq_msg = some m) :
    ∀ (rem i : Nat),
      dequeueLoop arrive i s rem =
        (some (m, s.rmq_id),
         registerConsumer (applyArrival (arrive i) s), 0) := by
  intro rem i
  have ha := applyArrival_held s (arrive i) m hm
  have h1 : (registerConsumer (applyArrival (arrive i) s)).rmq_msg = some m := by
    rw [registerConsumer_rmq_msg]; exact ha.1
  have h2 : (registerConsumer (applyArrival (arrive i) s)).rmq_id = s.rmq_id := by
    rw [registerConsumer_rmq_id]; exact ha.2
  cases rem <;> simp [dequeueLoop, h1, h2]

/-- If no message is held and the first delivery arrives just before poll
`j ≤ rem + j₀`... specialized form: starting with no held message, with no
arrival before relative poll `j` and a delivery `(b, t)` at poll `j`, the
loop returns `(b, t)` after `j` sleeps. -/
theorem dequeueLoop_first_arrival (b : String) (t : Nat) :
    ∀ (j : Nat) (arrive : Nat → Option (String × Nat)) (i rem : Nat)
      (s : RMQState), s.rmq_msg = none → j ≤ rem →
      arrive (i + j) = some (b, t) → (∀ k, k < j → arrive (i + k) = none) →
      (dequeueLoop arrive i s rem).1 = some (b, some t) ∧
      (dequeueLoop arrive i s rem).2.2 = j := by
  intro j
  induction j with
  | zero =>
    intro arrive i rem s hm _ harr _
    have harr' : arrive i = some (b, t) := by simpa using harr
    have hacc : (applyArrival (arrive i) s).rmq_msg = some b ∧
        (applyArrival (arrive i) s).rmq_id = some t := by
      rw [harr']
      simp [applyArrival, on_message, hm]
    have h1 : (registerConsumer (applyArrival (arrive i) s)).rmq_msg = some b := by
      rw [registerConsumer_rmq_msg]; exact hacc.1
    have h2 : (registerConsumer (applyArrival (arrive i) s)).rmq_id = some t := by
      rw [registerConsumer_rmq_id]; exact hacc.2
    cases rem <;> simp [dequeueLoop, h1, h2]
  | succ j ih =>
    intro arrive i rem s hm hj harr hmin
    cases rem with
    | zero => omega
    | succ rem =>
      have h0 : arrive i = none := by simpa using hmin 0 (Nat.succ_pos j)
      have hm1 : (registerConsumer (applyArrival (arrive i) s)).rmq_msg = none := by
        rw [registerConsumer_rmq_msg, h0]
        exact hm
      have hrec := ih arrive (i + 1) rem
        (registerConsumer (applyArrival (arrive i) s)) hm1 (by omega)
        (by have e : i + 1 + j = i + (j + 1) := by omega
            rw [e]; exact harr)
        (fun k hk => by
          have e : i + 1 + k = i + (k + 1) := by omega
          rw [e]; exact hmin (k + 1) (Nat.succ_lt_succ hk))
      rw [h0] at hm1 hrec
      simp only [dequeueLoop, applyArrival, h0]
      simp only [applyArrival, h0] at hm1 hrec
      rw [hm1]
      simp [hrec.1, hrec.2]

/-! ## Claim C7 — dequeue timeout behavior -/

/-- C7: (a) with no held message and no delivery arriving,
`dequeue(timeout=N)` terminates returning no message (never an error)
after exactly `N` one-time-unit sleeps, its only state effect being the
consumer registration; (b) if a message is held when `dequeue` starts, its
body and handle are returned immediately (zero sleeps); (c) if no message
is held and the first delivery arrives just before poll `j ≤ N`, its body
and tag are returned after `j` sleeps. -/
theorem c7_dequeue_timeout (s : RMQState) (N : Nat) :
    (s.rmq_msg = none →
      dequeue s N (fun _ => none) = (none, registerConsumer s, N)) ∧
    (∀ m arrive, s.rmq_msg = some m →
      (dequeue s N arrive).1 = some (m, s.rmq_id) ∧
      (dequeue s N arrive).2.2 = 0) ∧
    (∀ b t j arrive, s.rmq_msg = none → j ≤ N →
      arrive j = some (b, t) → (∀ k, k < j → arrive k = none) →
      (dequeue s N arrive).1 = some (b, some t) ∧
      (dequeue s N arrive).2.2 = j) := by
  refine ⟨fun hm => ?_, fun m arrive hm => ?_, fun b t j arrive hm hj harr hmin => ?_⟩
  · exact dequeueLoop_no_arrivals s hm N 0
  · rw [dequeue, dequeueLoop_held s m arrive hm N 0]
    exact ⟨rfl, rfl⟩
  · exact dequeueLoop_first_arrival b t j arrive 0 N s hm hj
      (by simpa using harr) (fun k hk => by simpa using hmin k hk)

/-- C7 witness: on the ready state with no held message, `dequeue` with
timeout 3 and no arrivals returns no message after 3 sleeps. -/
theorem c7_dequeue_timeout_witness :
    sReadyW.rmq_msg = none ∧
    dequeue sReadyW 3 (fun _ => none) =
      (none, { sReadyW with consumer := some () }, 3) := by
  refine ⟨rfl, ?_⟩
  have h := (c7_dequeue_timeout sReadyW 3).1 rfl
  simpa [registerConsumer, sReadyW, s0W, initState] using h

/-! ## Claim C10 — dequeue does not consume the held message -/

/-- C10: `dequeue` never clears the held slot — while a message is held,
`dequeue` returns its (body, handle) pair and leaves the slot holding the
same pair, so a second `dequeue` (before any `acknowledge`) returns the
same pair again; the confirmation callback and a successful `enqueue`
leave the slot unchanged as well, while `acknowledge` and the reconnect
reset are the operations that clear it. -/
theorem c10_dequeue_preserves_held (s : RMQState) (m : String)
    (N N₂ : Nat) (arrive arrive₂ : Nat → Option (String × Nat))
    (h : s.rmq_msg = some m) :
    (dequeue s N arrive).1 = some (m, s.rmq_id) ∧
    ((dequeue s N arrive).2.1).rmq_msg = some m ∧
    ((dequeue s N arrive).2.1).rmq_id = s.rmq_id ∧
    (dequeue (dequeue s N arrive).2.1 N₂ arrive₂).1 = some (m, s.rmq_id) ∧
    (∀ tag pos, ((on_delivery_confirmation s tag pos).1).rmq_msg = some m ∧
      ((on_delivery_confirmation s tag pos).1).rmq_id = s.rmq_id) ∧
    (∀ msg r ready delivs n s',
      (enqueue s msg r ready delivs).1 = Except.ok (n, s') →
      s'.rmq_msg = some m ∧ s'.rmq_id = s.rmq_id) ∧
    (∀ ack_id, ((acknowledge s ack_id).1).rmq_msg = none ∧
      ((acknowledge s ack_id).1).rmq_id = none) ∧
    ((resetTracking s).rmq_msg = s.rmq_msg) := by
  have hd := dequeueLoop_held s m arrive h N 0
  have ha := applyArrival_held s (arrive 0) m h
  have h1 : ((dequeue s N arrive).2.1).rmq_msg = some m := by
    rw [dequeue, hd]
    rw [registerConsumer_rmq_msg]; exact ha.1
  have h2 : ((dequeue s N arrive).2.1).rmq_id = s.rmq_id := by
    rw [dequeue, hd]
    rw [registerConsumer_rmq_id]; exact ha.2
  refine ⟨by rw [dequeue, hd], h1, h2, ?_, ?_, ?_, ?_, rfl⟩
  · rw [dequeue, dequeueLoop_held _ m arrive₂ h1 N₂ 0, h2]
  · intro tag pos
    cases pos <;> by_cases hmem : tag ∈ s.deliveries <;>
      simp [on_delivery_confirmation, hmem, h]
  · intro msg r ready delivs n s' hok
    revert hok
    simp only [enqueue]
    split
    · intro hok; simp at hok
    · split
      · intro hok; simp at hok
      · split
        · intro hok; simp at hok
        · split
          · intro hok
            simp only [Except.ok.injEq, Prod.mk.injEq] at hok
            rw [← hok.2]
            exact ⟨h, rfl⟩
          · intro hok; simp at hok
  · intro ack_id
    simp [acknowledge]
    cases hch : s.channel <;> simp [hch]

/-- C10 witness: on the concrete held state, two successive `dequeue`
calls both return the held pair. -/
theorem c10_dequeue_preserves_held_witness :
    sHeldW.rmq_msg = some "held" ∧
    (dequeue sHeldW 2 (fun _ => none)).1 = some ("held", some 3) ∧
    (dequeue (dequeue sHeldW 2 (fun _ => none)).2.1 4 (fun _ => none)).1 =
      some ("held", some 3) := by
  have h := c10_dequeue_preserves_held sHeldW "held" 2 4
    (fun _ => none) (fun _ => none) rfl
  exact ⟨rfl, h.1, h.2.2.2.1⟩

/-! ## Claim C5 — sequence numbering across a connection lifetime -/

/-- The arguments of one `enqueue` call, with its readiness and pending-set
oracles. -/
structure EnqCall where
  msg : Option String
  retries : Nat
  ready : Nat → Bool
  delivs : Nat → List Nat

/-- Run a sequence of `enqueue` calls, threading the state; `some` of the
returned sequence numbers and the final state when every call succeeds,
`none` as soon as one raises. -/
def enqueueOutputs (s : RMQState) : List EnqCall → Option (List Nat × RMQState)
  | [] => some ([], s)
  | c :: cs =>
    match (enqueue s c.msg c.retries c.ready c.delivs).1 with
    | Except.ok (n, s') =>
      match enqueueOutputs s' cs with
      | some (l, sF) => some (n :: l, sF)
      | none => none
    | Except.error _ => none

/-- Inversion of a successful `enqueue`: the returned sequence number is
the incremented publish counter and the state is updated exactly by the
increment and the append to the pending list. -/
theorem enqueue_ok_inv (s : RMQState) (msg : Option String) (r : Nat)
    (ready : Nat → Bool) (delivs : Nat → List Nat) (n : Nat) (s' : RMQState)
    (h : (enqueue s msg r ready delivs).1 = Except.ok (n, s')) :
    n = s.message_number + 1 ∧
    s' = { s with
            message_number := s.message_number + 1,
            deliveries := s.deliveries ++ [s.message_number + 1] } := by
  revert h
  simp only [enqueue]
  split
  · intro h; simp at h
  · split
    · intro h; simp at h
    · split
      · intro h; simp at h
      · split
        · intro h
          simp only [Except.ok.injEq, Prod.mk.injEq] at h
          exact ⟨h.1.symm, h.2.symm⟩
        · intro h; simp at h

/-- A run of successful `enqueue` calls returns the consecutive numbers
following the entry publish counter, and advances the counter by the
number of calls. -/
theorem enqueueOutputs_range (cs : List EnqCall) :
    ∀ (s : RMQState) (l : List Nat) (sF : RMQState),
      enqueueOutputs s cs = some (l, sF) →
      l = (List.range cs.length).map (fun i => s.message_number + i + 1) ∧
      sF.message_number = s.message_number + cs.length := by
  induction cs with
  | nil =>
    intro s l sF h
    simp only [enqueueOutputs, Option.some.injEq, Prod.mk.injEq] at h
    simp [← h.1, ← h.2]
  | cons c cs ih =>
    intro s l sF h
    revert h
    simp only [enqueueOutputs]
    split
    · next n s' heq =>
      split
      · next l' sF' heq' =>
        intro h
        simp only [Option.some.injEq, Prod.mk.injEq] at h
        obtain ⟨hinc, hstate⟩ := enqueue_ok_inv s c.msg c.retries c.ready c.delivs n s' heq
        obtain ⟨hl', hF⟩ := ih s' l' sF' heq'
        have hmn : s'.message_number = s.message_number + 1 := by
          rw [hstate]
        refine ⟨?_, ?_⟩
        · rw [← h.1, hl', hinc]
          simp only [List.length_cons, List.range_succ_eq_map, List.map_cons,
            List.map_map]
          refine congrArg₂ List.cons (by omega) ?_
          refine List.map_congr_left (fun i _ => ?_)
          simp only [Function.comp_apply]
          omega
        · rw [← h.2]
          simp only [List.length_cons]
          omega
      · intro h; simp at h
    · intro h; simp at h

theorem registerConsumer_message_number (s : RMQState) :
    (registerConsumer s).message_number = s.message_number := by
  simp only [registerConsumer]; split <;> rfl

theorem on_message_message_number (s : RMQState) (b : String) (t : Nat) :
    ((on_message s b t).1).message_number = s.message_number := by
  cases hm : s.rmq_msg <;> cases hc : s.connection <;> cases hch : s.channel <;>
    simp [on_message, hm, hc, hch]

theorem applyArrival_message_number (a : Option (String × Nat)) (s : RMQState) :
    (applyArrival a s).message_number = s.message_number := by
  cases a with
  | none => rfl
  | some p => exact on_message_message_number s p.1 p.2

theorem dequeueLoop_message_number (arrive : Nat → Option (String × Nat)) :
    ∀ (rem i : Nat) (s : RMQState),
      ((dequeueLoop arrive i s rem).2.1).message_number = s.message_number := by
  intro rem
  induction rem with
  | zero =>
    intro i s
    simp only [dequeueLoop]
    split <;>
      simp [registerConsumer_message_number, applyArrival_message_number]
  | succ rem ih =>
    intro i s
    simp only [dequeueLoop]
    split <;>
      simp [ih, registerConsumer_message_number, applyArrival_message_number]

/-- C5: (a) the reset at the top of every connection attempt zeroes the
publish counter, the pending list and both confirmation counters; (b) a
run of successful `enqueue` calls started right after a reset returns
exactly `1, 2, …, k` — strictly increasing and starting at 1; (c) each
successful `enqueue` returns the incremented counter and stores it back;
(d) no other operation (confirmation callback, message callback,
acknowledge, dequeue) changes the publish counter, so the numbering within
one connection lifetime is governed by (b) and (c) alone. -/
theorem c5_sequence_numbers :
    (∀ s, (resetTracking s).message_number = 0 ∧
      (resetTracking s).deliveries = [] ∧
      (resetTracking s).acked = 0 ∧ (resetTracking s).nacked = 0) ∧
    (∀ s cs l sF, enqueueOutputs (resetTracking s) cs = some (l, sF) →
      l = (List.range cs.length).map (fun i => i + 1) ∧
      List.Pairwise (· < ·) l ∧
      (cs ≠ [] → l.head? = some 1)) ∧
    (∀ s msg r ready delivs n s',
      (enqueue s msg r ready delivs).1 = Except.ok (n, s') →
      n = s.message_number + 1 ∧ s'.message_number = s.message_number + 1) ∧
    ((∀ s tag pos,
        ((on_delivery_confirmation s tag pos).1).message_number =
          s.message_number) ∧
     (∀ s b t, ((on_message s b t).1).message_number = s.message_number) ∧
     (∀ s a, ((acknowledge s a).1).message_number = s.message_number) ∧
     (∀ s N arr, ((dequeue s N arr).2.1).message_number = s.message_number)) := by
  refine ⟨fun s => ⟨rfl, rfl, rfl, rfl⟩, ?_, ?_, ?_, ?_, ?_, ?_⟩
  · intro s cs l sF h
    obtain ⟨hl, _⟩ := enqueueOutputs_range cs (resetTracking s) l sF h
    have hl' : l = (List.range cs.length).map (fun i => i + 1) := by
      rw [hl]
      exact List.map_congr_left (fun i _ => by simp [resetTracking])
    refine ⟨hl', ?_, ?_⟩
    · rw [hl']
      exact (List.pairwise_lt_range cs.length).map _ (fun a b hab => by omega)
    · intro hne
      rcases cs with _ | ⟨c, cs'⟩
      · exact absurd rfl hne
      · rw [hl']
        simp [List.range_succ_eq_map]
  · intro s msg r ready delivs n s' h
    obtain ⟨hn, hs⟩ := enqueue_ok_inv s msg r ready delivs n s' h
    exact ⟨hn, by rw [hs]⟩
  · intro s tag pos
    cases pos <;> by_cases hmem : tag ∈ s.deliveries <;>
      simp [on_delivery_confirmation, hmem]
  · exact fun s b t => on_message_message_number s b t
  · intro s a
    cases hch : s.channel <;> simp [acknowledge, hch]
  · exact fun s N arr => dequeueLoop_message_number arr N 0 s

/-- The enqueue call used by the C5 witness: the channel is ready at the
first poll and the confirmation is observed at the first poll. -/
def callW : EnqCall := ⟨some "a", 1, fun _ => true, fun _ => []⟩

/-- C5 witness: two successful calls right after a reset return `[1, 2]`,
and the theorem yields the range form, strict increase and head 1. -/
theorem c5_sequence_numbers_witness :
    enqueueOutputs (resetTracking sReadyW) [callW, callW] =
      some ([1, 2],
        { sReadyW with connection := none, message_number := 2,
                       deliveries := [1, 2] }) ∧
    ([1, 2] = (List.range 2).map (fun i => i + 1) ∧
     List.Pairwise (· < ·) [1, 2] ∧
     ([callW, callW] ≠ ([] : List EnqCall) → [1, 2].head? = some 1)) := by
  refine ⟨rfl, ?_⟩
  have h := c5_sequence_numbers.2.1 sReadyW [callW, callW] [1, 2]
    { sReadyW with connection := none, message_number := 2, deliveries := [1, 2] }
    rfl
  simpa using h

end RabbitQueue
